import Mathlib

/-!
# Cronus: request tracking on top of an Application Insights client

A shallow embedding of the Go package `tracking` (files `cronus.go` and
`middleware.go`) together with the properties its specification states.

Conventions of the embedding.

* A Go function that mutates through pointers becomes a function from the
  state before the call to the state after it.  The state is made explicit:
  the context `*IncomingRequest` is carried as the value it points to, and the
  telemetry items that the context references through slices of pointers
  (`Dependencies`, `Exceptions`) live in two typed stores of a `World`, where a
  pointer is the index of its cell.
* A Go panic is an `Outcome.panicked` that still carries the state reached,
  because writes made before a panic persist.
* Reads of the wall clock (`time.Now`, `time.Since`, the clock of the telemetry
  library) and freshly drawn uuids are inputs of the function that reads them,
  in the order of the reads.
* `time.Duration` is a signed 64 bit count of nanoseconds; subtraction of two
  instants saturates, as `time.Time.Sub` does.
* The telemetry client is an interface value.  The world keeps the list of
  the items handed to `Track`, each one recorded as it was at the moment of the
  call; what the client writes afterwards into the maps of an item, which it
  holds by reference, is given by the client.
* The logger of a context (`Logger`, `Info`, `Debug`), the `Measurements`
  maps, the call stack of an exception and the `Name` of a request item are
  not read or written by any operation studied here and are left out.
-/

namespace Cronus

/-! ## Go runtime -/

/-- Result of running a Go function on a mutable state `σ`: the function
returns, or it panics; either way the state reached is kept. -/
inductive Outcome (σ : Type) where
  | returned (s : σ)
  | panicked (s : σ)
  deriving DecidableEq, Repr

/-- State reached when the function stopped, by return or by panic. -/
def Outcome.state {σ : Type} : Outcome σ → σ
  | .returned s => s
  | .panicked s => s

/-- Whether the function returned normally. -/
def Outcome.isReturned {σ : Type} : Outcome σ → Bool
  | .returned _ => true
  | .panicked _ => false

/-- An instant, in nanoseconds counted from the zero `time.Time`. -/
abbrev Time := Int

/-- A `time.Duration`: nanoseconds held in a signed 64 bit integer. -/
abbrev Duration := Int

/-- Largest `time.Duration`, `1<<63 - 1`. -/
def maxDuration : Duration := 9223372036854775807

/-- Smallest `time.Duration`, `-1 << 63`. -/
def minDuration : Duration := -9223372036854775808

/-- Go `t.Sub(u)`: the duration `t - u`, replaced by the largest or smallest
duration when the difference does not fit. -/
def Sub (t u : Time) : Duration :=
  if t - u > maxDuration then maxDuration
  else if t - u < minDuration then minDuration
  else t - u

/-- Go `time.Since(t)`, shorthand for `time.Now().Sub(t)`; `now` is the clock
reading taken by the call. -/
def Since (now t : Time) : Duration := Sub now t

/-- Go `strconv.Itoa`: decimal digits, with a leading minus sign for a
negative number. -/
def Itoa : Int → String
  | Int.ofNat m => Nat.repr m
  | Int.negSucc m => "-" ++ Nat.repr (m + 1)

/-- A value of the Go interface type `error`, as far as this package can
observe it. -/
inductive GoError where
  /-- The nil interface value. -/
  | nilInterface
  /-- A non-nil interface that wraps a nil `*gin.Error`; this is what a nil
  result of `c.Errors.Last()` becomes when it is passed as an `error`. -/
  | nilPointer
  /-- An error whose `Error()` method returns `msg`. -/
  | withMessage (msg : String)
  deriving DecidableEq, Repr

/-- The call `err.Error()`: `none` stands for the nil dereference panic that
the call raises on a nil interface and on a nil `*gin.Error` (whose `Error`
method has a value receiver). -/
def GoError.Error : GoError → Option String
  | .nilInterface => none
  | .nilPointer => none
  | .withMessage msg => some msg

/-! ## Go maps from string to string -/

/-- A non-nil `map[string]string`, as made by `make`. -/
structure StringMap where
  entries : List (String × String)
  deriving DecidableEq, Repr

/-- First value bound to `k` in a list of entries. -/
def lookupEntry (k : String) : List (String × String) → Option String
  | [] => none
  | (a, b) :: rest => if a = k then some b else lookupEntry k rest

/-- The map `make(map[string]string)`. -/
def StringMap.empty : StringMap := ⟨[]⟩

/-- The two-result read `v, ok := m[k]`. -/
def StringMap.get (m : StringMap) (k : String) : Option String :=
  lookupEntry k m.entries

/-- The read `m[k]`, the empty string when `k` is not a key. -/
def StringMap.index (m : StringMap) (k : String) : String :=
  (m.get k).getD ""

/-- The builtin `delete(m, k)`. -/
def StringMap.delete (m : StringMap) (k : String) : StringMap :=
  ⟨m.entries.filter (fun p => decide (p.1 ≠ k))⟩

/-- The assignment `m[k] = v`. -/
def StringMap.set (m : StringMap) (k v : String) : StringMap :=
  ⟨(k, v) :: (m.delete k).entries⟩

/-! ## The telemetry library (`appinsights`, `contracts`) -/

/-- Tag key `contracts.OperationId`. -/
def OperationId : String := "ai.operation.id"

/-- Tag key `contracts.OperationParentId`. -/
def OperationParentId : String := "ai.operation.parentId"

/-- Library setter of a context tag: an empty value removes the tag. -/
def setTag (tags : StringMap) (key value : String) : StringMap :=
  if value ≠ "" then tags.set key value else tags.delete key

/-- Library getter of a context tag: the empty string when the tag is not
set. -/
def getTag (tags : StringMap) (key : String) : String :=
  match tags.get key with
  | some v => v
  | none => ""

/-- The call `tags.Operation().SetId(value)`. -/
def SetId (tags : StringMap) (value : String) : StringMap :=
  setTag tags OperationId value

/-- The call `tags.Operation().GetId()`. -/
def GetId (tags : StringMap) : String := getTag tags OperationId

/-- The call `tags.Operation().SetParentId(value)`. -/
def SetParentId (tags : StringMap) (value : String) : StringMap :=
  setTag tags OperationParentId value

/-- The call `tags.Operation().GetParentId()`. -/
def GetParentId (tags : StringMap) : String := getTag tags OperationParentId

/-- Library type `contracts.SeverityLevel`. -/
inductive SeverityLevel where
  | Verbose
  | Information
  | Warning
  | Error
  | Critical
  deriving DecidableEq, Repr

/-- Library type `appinsights.RequestTelemetry`. -/
structure RequestTelemetry where
  Url : String
  Id : String
  Duration : Duration
  ResponseCode : String
  Success : Bool
  Timestamp : Time
  Tags : StringMap
  Properties : StringMap
  deriving DecidableEq, Repr

/-- Library type `appinsights.RemoteDependencyTelemetry`. -/
structure RemoteDependencyTelemetry where
  Name : String
  Id : String
  ResultCode : String
  Duration : Duration
  Success : Bool
  Data : String
  Type_ : String
  Target : String
  Timestamp : Time
  Tags : StringMap
  Properties : StringMap
  deriving DecidableEq, Repr

/-- Library type `appinsights.ExceptionTelemetry`. -/
structure ExceptionTelemetry where
  Error : GoError
  SeverityLevel : SeverityLevel
  Timestamp : Time
  Tags : StringMap
  Properties : StringMap
  deriving DecidableEq, Repr

/-- Value of a run of decimal digits. -/
def digitsValue (cs : List Char) : Nat :=
  cs.foldl (fun acc c => 10 * acc + (c.toNat - 48)) 0

/-- The digits of a number text, without the sign in front of them. -/
def stripSign : List Char → List Char
  | '+' :: rest => rest
  | '-' :: rest => rest
  | cs => cs

/-- Whether a number text starts with a minus sign. -/
def hasMinus : List Char → Bool
  | '-' :: _ => true
  | _ => false

/-- Go `strconv.Atoi`: an optional sign followed by one or more decimal
digits, within the range of a 64 bit `int`; `none` is the error result. -/
def Atoi (s : String) : Option Int :=
  let body := stripSign s.data
  if body.isEmpty || !body.all Char.isDigit then none
  else
    let v : Int :=
      if hasMinus s.data then -(digitsValue body : Int) else (digitsValue body : Int)
    if v < -9223372036854775808 ∨ v > 9223372036854775807 then none else some v

/-- Library constructor `appinsights.NewRequestTelemetry(method, uri,
duration, responseCode)`: `Success` starts as true unless the response code
is a number that is 400 or more and not 401, and `Timestamp` is the reading
of the library clock moved back by `duration`.  `uuid` is the id the library
draws and `clock` the reading. -/
def NewRequestTelemetry (uuid : String) (clock : Time) (_method uri : String)
    (duration : Duration) (responseCode : String) : RequestTelemetry :=
  { Url := uri
    Id := uuid
    Duration := duration
    ResponseCode := responseCode
    Success := match Atoi responseCode with
      | some code => decide (code < 400 ∨ code = 401)
      | none => true
    Timestamp := clock - duration
    Tags := StringMap.empty
    Properties := StringMap.empty }

/-- Library constructor `appinsights.NewRemoteDependencyTelemetry`. -/
def NewRemoteDependencyTelemetry (clock : Time) (name dependencyType target : String)
    (success : Bool) : RemoteDependencyTelemetry :=
  { Name := name
    Id := ""
    ResultCode := ""
    Duration := 0
    Success := success
    Data := ""
    Type_ := dependencyType
    Target := target
    Timestamp := clock
    Tags := StringMap.empty
    Properties := StringMap.empty }

/-- Library constructor `appinsights.NewExceptionTelemetry`. -/
def NewExceptionTelemetry (clock : Time) (err : GoError) : ExceptionTelemetry :=
  { Error := err
    SeverityLevel := SeverityLevel.Error
    Timestamp := clock
    Tags := StringMap.empty
    Properties := StringMap.empty }

/-- An item handed to `TelemetryClient.Track`. -/
inductive Telemetry where
  | request (t : RequestTelemetry)
  | dependency (d : RemoteDependencyTelemetry)
  | exception (e : ExceptionTelemetry)
  deriving DecidableEq, Repr

/-- Context tags of an item. -/
def Telemetry.Tags : Telemetry → StringMap
  | .request t => t.Tags
  | .dependency d => d.Tags
  | .exception e => e.Tags

/-- Custom properties of an item. -/
def Telemetry.Properties : Telemetry → StringMap
  | .request t => t.Properties
  | .dependency d => d.Properties
  | .exception e => e.Properties

/-- Whether the item is a child record of a request: a dependency or an
exception. -/
def Telemetry.isChild : Telemetry → Bool
  | .request _ => false
  | .dependency _ => true
  | .exception _ => true

/-! ## State outside the context -/

/-- The mutable state the package works on besides the context itself: the
cells behind the `*RemoteDependencyTelemetry` and `*ExceptionTelemetry`
pointers, and what the telemetry client has been given so far.  A pointer is
the index of its cell; an index that has no cell plays the part of the nil
pointer, and reading through it panics. -/
structure World where
  deps : List RemoteDependencyTelemetry
  excs : List ExceptionTelemetry
  sent : List Telemetry
  deriving DecidableEq, Repr

/-- Go interface `appinsights.TelemetryClient`, of which the package calls
`Track` only.  `Track` receives a pointer to the item, and the client keeps
the `Tags` and `Properties` maps of the item by reference, so it can write to
them: the client of the telemetry library copies its default tags and its
common properties into them and gives an item that has no operation id a
generated one.  What the two maps hold when `Track` returns is given as a
function of the items the client received before and of the item handed
over. -/
structure TelemetryClient where
  tagsAfter : List Telemetry → Telemetry → StringMap
  propertiesAfter : List Telemetry → Telemetry → StringMap

/-- What a call of `Track` leaves: the world, in which the client has received
the item, and the two maps of the item as the client left them. -/
structure Handoff where
  world : World
  Tags : StringMap
  Properties : StringMap

/-- The call `client.Track(item)`: one submission, of the item as it is at the
call. -/
def Track (client : TelemetryClient) (w : World) (item : Telemetry) : Handoff :=
  { world := { w with sent := w.sent ++ [item] }
    Tags := client.tagsAfter w.sent item
    Properties := client.propertiesAfter w.sent item }

/-- A client that only records what it is handed and writes to no item. -/
def recordingClient : TelemetryClient :=
  { tagsAfter := fun _ item => item.Tags
    propertiesAfter := fun _ item => item.Properties }

/-! ## `cronus.go` -/

/-- Go struct `IncomingRequest`.  `Dependencies` and `Exceptions` hold
pointers, here indices into `World.deps` and `World.excs`. -/
structure IncomingRequest where
  TransactionId : String
  Path : String
  Method : String
  RequestTrace : RequestTelemetry
  RequestStartTime : Time
  Ikey : String
  Dependencies : List Nat
  Exceptions : List Nat
  deriving DecidableEq, Repr

/-- The part of `http.Request.URL` that is read. -/
structure URL where
  Path : String
  RawQuery : String

/-- The part of `http.Request` that is read.  `Header k` lists the values
the request carries for the header name `k`, as `Header.Get(k)` finds them. -/
structure Request where
  Method : String
  URL : URL
  Header : String → List String

/-- Go `Header.Get`: the first value of the header, the empty string when
the header is absent. -/
def Request.HeaderGet (r : Request) (key : String) : String :=
  match r.Header key with
  | [] => ""
  | v :: _ => v

/-- A `*gin.Error` stored in `c.Errors`; `Err` is the message of the error
it wraps. -/
structure GinError where
  Err : String
  deriving DecidableEq, Repr

/-- The part of `gin.Context` that is read: the request, the status written
so far (`c.Writer.Status()`) and the errors attached so far (`c.Errors`). -/
structure GinContext where
  Request : Request
  Status : Int
  Errors : List GinError

/-- Go `GenerateGinTrackingRequestCtx`. -/
def GenerateGinTrackingRequestCtx (uuid : String) (libClock now : Time)
    (ctx : GinContext) (IKEY : String) : IncomingRequest :=
  let tid := ctx.Request.HeaderGet "transactionId"
  { TransactionId := tid
    Path := ctx.Request.URL.Path
    Method := ctx.Request.Method
    RequestTrace :=
      NewRequestTelemetry uuid libClock ctx.Request.URL.Path ctx.Request.Method 1 ""
    RequestStartTime := now
    Ikey := IKEY
    Dependencies := []
    Exceptions := [] }

/-- Go `(*IncomingRequest).AddDependency`; returns the context, the world and
the new handle. -/
def IncomingRequest.AddDependency (uuid : String) (libClock now : Time)
    (i : IncomingRequest) (Name Type_ target : String) (w : World) :
    IncomingRequest × World × Nat :=
  let k := NewRemoteDependencyTelemetry libClock Name Type_ target false
  let k := { k with Timestamp := now }
  let k := { k with Id := uuid }
  let handle := w.deps.length
  ({ i with Dependencies := i.Dependencies ++ [handle] },
   { w with deps := w.deps ++ [k] }, handle)

/-- Go `(*IncomingRequest).CompleteDependency`; a `dep` that has no cell is
the nil pointer. -/
def IncomingRequest.CompleteDependency (now : Time) (_i : IncomingRequest)
    (dep : Nat) (succes : Bool) (w : World) : Outcome World :=
  match w.deps[dep]? with
  | none => .panicked w
  | some d =>
    let d := { d with Duration := Since now d.Timestamp }
    let d := { d with Success := succes }
    .returned { w with deps := w.deps.set dep d }

/-- Go `(*IncomingRequest).LogFaliure`. -/
def IncomingRequest.LogFaliure (libClock now : Time) (i : IncomingRequest)
    (err : GoError) (w : World) : Outcome (IncomingRequest × World) :=
  let f := NewExceptionTelemetry libClock err
  let f := { f with Timestamp := now }
  let f := { f with Error := err }
  match err.Error with
  | none => .panicked (i, w)
  | some msg =>
    let f := { f with Properties := f.Properties.set "errorMessage" msg }
    let f := { f with SeverityLevel := SeverityLevel.Critical }
    .returned ({ i with Exceptions := i.Exceptions ++ [w.excs.length] },
               { w with excs := w.excs ++ [f] })

/-- Go `(*IncomingRequest).LogWarning`. -/
def IncomingRequest.LogWarning (libClock now : Time) (i : IncomingRequest)
    (err : GoError) (w : World) : Outcome (IncomingRequest × World) :=
  let f := NewExceptionTelemetry libClock err
  let f := { f with Timestamp := now }
  let f := { f with Error := err }
  match err.Error with
  | none => .panicked (i, w)
  | some msg =>
    let f := { f with Properties := f.Properties.set "errorMessage" msg }
    let f := { f with SeverityLevel := SeverityLevel.Warning }
    .returned ({ i with Exceptions := i.Exceptions ++ [w.excs.length] },
               { w with excs := w.excs ++ [f] })

/-- Go interface `Insights`.  The arguments before the Go ones are the uuid
and the clock readings the environment supplies during the call. -/
structure Insights where
  StartGinTrackingRequestRequest :
    String → Time → Time → Time → GinContext → String → World → IncomingRequest × World
  CompleteSuccesfulRequest :
    Time → IncomingRequest → String → World → Outcome (IncomingRequest × World)
  CompleteFailedRequest :
    Time → IncomingRequest → String → GoError → World → Outcome (IncomingRequest × World)
  handleRemoteDependencies : String → List Nat → World → Outcome World
  handleExceptions : String → List Nat → World → Outcome World

/-- Go struct `insightsImpl`; its logger is not used by any method. -/
structure insightsImpl where
  client : TelemetryClient

namespace insightsImpl

/-- Go `(*insightsImpl).StartGinTrackingRequestRequest`. -/
def StartGinTrackingRequestRequest (uuid : String) (libClock startNow now : Time)
    (ctx : GinContext) (IKEY : String) : IncomingRequest :=
  let r := GenerateGinTrackingRequestCtx uuid libClock startNow ctx IKEY
  let r := { r with RequestTrace := { r.RequestTrace with
    Properties := r.RequestTrace.Properties.set "Query" ctx.Request.URL.RawQuery } }
  let r := { r with RequestTrace := { r.RequestTrace with Timestamp := now } }
  let r := { r with RequestTrace := { r.RequestTrace with Id := r.TransactionId } }
  r

/-- Go `(*insightsImpl).handleRemoteDependencies`: the loop over `deps`.  After
`Track` the cell holds the maps as the client left them. -/
def handleRemoteDependencies (i : insightsImpl) (tid : String) :
    List Nat → World → Outcome World
  | [], w => .returned w
  | dep :: rest, w =>
    match w.deps[dep]? with
    | none => .panicked w
    | some d =>
      let d := { d with Tags := SetParentId d.Tags tid }
      let h := Track i.client w (.dependency d)
      let d := { d with Tags := h.Tags, Properties := h.Properties }
      let w := { h.world with deps := h.world.deps.set dep d }
      handleRemoteDependencies i tid rest w

/-- Go `(*insightsImpl).handleExceptions`: the loop over `deps`.  After `Track`
the cell holds the maps as the client left them. -/
def handleExceptions (i : insightsImpl) (tid : String) :
    List Nat → World → Outcome World
  | [], w => .returned w
  | dep :: rest, w =>
    match w.excs[dep]? with
    | none => .panicked w
    | some e =>
      let e := { e with Tags := SetParentId e.Tags tid }
      let h := Track i.client w (.exception e)
      let e := { e with Tags := h.Tags, Properties := h.Properties }
      let w := { h.world with excs := h.world.excs.set dep e }
      handleExceptions i tid rest w

/-- Go `(*insightsImpl).CompleteSuccesfulRequest`.  After `Track` the request
trace holds the maps as the client left them. -/
def CompleteSuccesfulRequest (i : insightsImpl) (now : Time) (r : IncomingRequest)
    (code : String) (w : World) : Outcome (IncomingRequest × World) :=
  let r := { r with RequestTrace := { r.RequestTrace with
    Duration := Since now r.RequestStartTime } }
  let r := { r with RequestTrace := { r.RequestTrace with Success := true } }
  let r := { r with RequestTrace := { r.RequestTrace with ResponseCode := code } }
  let r := { r with RequestTrace := { r.RequestTrace with
    Tags := SetId r.RequestTrace.Tags r.TransactionId } }
  let h := Track i.client w (.request r.RequestTrace)
  let r := { r with RequestTrace := { r.RequestTrace with
    Tags := h.Tags, Properties := h.Properties } }
  let w := h.world
  match handleRemoteDependencies i r.RequestTrace.Id r.Dependencies w with
  | .panicked w => .panicked (r, w)
  | .returned w =>
    match handleExceptions i r.RequestTrace.Id r.Exceptions w with
    | .panicked w => .panicked (r, w)
    | .returned w => .returned (r, w)

/-- Go `(*insightsImpl).CompleteFailedRequest`.  After `Track` the request
trace holds the maps as the client left them. -/
def CompleteFailedRequest (i : insightsImpl) (now : Time) (r : IncomingRequest)
    (code : String) (err : GoError) (w : World) : Outcome (IncomingRequest × World) :=
  let r := { r with RequestTrace := { r.RequestTrace with
    Duration := Since now r.RequestStartTime } }
  let r := { r with RequestTrace := { r.RequestTrace with Success := false } }
  let r := { r with RequestTrace := { r.RequestTrace with ResponseCode := code } }
  match err.Error with
  | none => .panicked (r, w)
  | some msg =>
    let r := { r with RequestTrace := { r.RequestTrace with
      Properties := r.RequestTrace.Properties.set "error" msg } }
    let h := Track i.client w (.request r.RequestTrace)
    let r := { r with RequestTrace := { r.RequestTrace with
      Tags := h.Tags, Properties := h.Properties } }
    let w := h.world
    match handleRemoteDependencies i r.RequestTrace.Id r.Dependencies w with
    | .panicked w => .panicked (r, w)
    | .returned w =>
      match handleExceptions i r.RequestTrace.Id r.Exceptions w with
      | .panicked w => .panicked (r, w)
      | .returned w => .returned (r, w)

end insightsImpl

/-- Go `NewInsights`: the one implementation of `Insights` in the package.
`client` is what `appinsights.NewTelemetryClient(Ikey)` returned. -/
def NewInsights (client : TelemetryClient) : Insights :=
  { StartGinTrackingRequestRequest := fun uuid libClock startNow now ctx IKEY w =>
      (insightsImpl.StartGinTrackingRequestRequest uuid libClock startNow now ctx IKEY, w)
    CompleteSuccesfulRequest := insightsImpl.CompleteSuccesfulRequest ⟨client⟩
    CompleteFailedRequest := insightsImpl.CompleteFailedRequest ⟨client⟩
    handleRemoteDependencies := insightsImpl.handleRemoteDependencies ⟨client⟩
    handleExceptions := insightsImpl.handleExceptions ⟨client⟩ }

/-! ## `middleware.go` -/

/-- Go `c.Errors.Last()`: the last attached error, nil when there is none. -/
def Last : List GinError → Option GinError
  | [] => none
  | [e] => some e
  | _ :: rest => Last rest

/-- Conversion of the `*gin.Error` returned by `Last` to the `error`
parameter of `CompleteFailedRequest`. -/
def asError : Option GinError → GoError
  | none => GoError.nilPointer
  | some e => GoError.withMessage e.Err

/-- The rest of the handler chain, run by `c.Next()`.  It reaches the context
stored under the key `requestCtx`, may write the response and attach errors,
and returns. -/
abbrev HandlerChain :=
  IncomingRequest → GinContext → World → IncomingRequest × GinContext × World

/-- Go `GINInsightsTracker`: the handler it returns, run on the gin context
`c`.  The statement `c.Set("requestCtx", req)` is what lets the chain reach
`req`, which `next` therefore receives.  `uuid`, `libClock`, `startNow`,
`stampNow` are what the environment supplies while the context is created and
`endNow` is the clock reading of the completion call. -/
def GINInsightsTracker (i : Insights) (IKEY : String) (next : HandlerChain)
    (uuid : String) (libClock startNow stampNow endNow : Time)
    (c : GinContext) (w : World) : Outcome (IncomingRequest × World) :=
  let (req, w) := i.StartGinTrackingRequestRequest uuid libClock startNow stampNow c IKEY w
  let (req, c, w) := next req c w
  let code := Itoa c.Status
  if c.Status ≥ 200 ∧ c.Status < 300 then
    i.CompleteSuccesfulRequest endNow req code w
  else
    i.CompleteFailedRequest endNow req code (asError (Last c.Errors)) w

/-- The context, the gin context and the world at the moment `c.Next()`
returns inside the handler of `GINInsightsTracker`. -/
def handled (i : Insights) (IKEY : String) (next : HandlerChain)
    (uuid : String) (libClock startNow stampNow : Time)
    (c : GinContext) (w : World) : IncomingRequest × GinContext × World :=
  let started := i.StartGinTrackingRequestRequest uuid libClock startNow stampNow c IKEY w
  next started.1 c started.2

/-- A handler chain that answers 404 and attaches no error. -/
def notFoundHandler : HandlerChain :=
  fun req c w => (req, { c with Status := 404 }, w)

/-- A handler chain that attaches two errors, the later one with message
`timeout`, and answers 500. -/
def timeoutHandler : HandlerChain :=
  fun req c w =>
    (req, { c with Status := 500, Errors := c.Errors ++ [⟨"retry"⟩, ⟨"timeout"⟩] }, w)

/-- A handler chain that leaves the response as it is. -/
def plainHandler : HandlerChain :=
  fun req c w => (req, c, w)

/-- What a call handed to the telemetry client: the items received after
`before`, in the order of the `Track` calls. -/
def submitted (before after : World) : List Telemetry :=
  after.sent.drop before.sent.length

/-- World after one round of the dependency loop on the cell `d` of the
pointer `dep`; a device of the proofs, not a function of the package. -/
def stepDependency (i : insightsImpl) (tid : String) (dep : Nat)
    (d : RemoteDependencyTelemetry) (w : World) : World :=
  { deps := w.deps.set dep
      { d with
        Tags := i.client.tagsAfter w.sent
          (.dependency { d with Tags := SetParentId d.Tags tid })
        Properties := i.client.propertiesAfter w.sent
          (.dependency { d with Tags := SetParentId d.Tags tid }) }
    excs := w.excs
    sent := w.sent ++ [.dependency { d with Tags := SetParentId d.Tags tid }] }

/-- World after one round of the exception loop on the cell `e` of the pointer
`dep`; a device of the proofs, not a function of the package. -/
def stepException (i : insightsImpl) (tid : String) (dep : Nat)
    (e : ExceptionTelemetry) (w : World) : World :=
  { deps := w.deps
    excs := w.excs.set dep
      { e with
        Tags := i.client.tagsAfter w.sent
          (.exception { e with Tags := SetParentId e.Tags tid })
        Properties := i.client.propertiesAfter w.sent
          (.exception { e with Tags := SetParentId e.Tags tid }) }
    sent := w.sent ++ [.exception { e with Tags := SetParentId e.Tags tid }] }

/-- The two loops run one after the other, as at the end of both completion
functions; a device of the proofs, not a function of the package. -/
def flushAll (i : insightsImpl) (r : IncomingRequest) (w : World) :
    Outcome (IncomingRequest × World) :=
  match i.handleRemoteDependencies r.RequestTrace.Id r.Dependencies w with
  | .panicked w => .panicked (r, w)
  | .returned w =>
    match i.handleExceptions r.RequestTrace.Id r.Exceptions w with
    | .panicked w => .panicked (r, w)
    | .returned w => .returned (r, w)

/-- The request trace as the client leaves it after `Track`; a device of the
proofs. -/
def afterTrack (i : insightsImpl) (w : World) (t : RequestTelemetry) : RequestTelemetry :=
  { t with
    Tags := i.client.tagsAfter w.sent (.request t)
    Properties := i.client.propertiesAfter w.sent (.request t) }

/-! ## Concrete inputs used for evaluation -/

/-- A request `GET /orders` carrying the header `transactionId: abc123`. -/
def ordersRequest : Request :=
  { Method := "GET"
    URL := { Path := "/orders", RawQuery := "page=2" }
    Header := fun k => if k = "transactionId" then ["abc123"] else [] }

/-- The gin context of `ordersRequest` before any handler ran: status 200, the
initial status of a gin response writer, and no error attached. -/
def ordersContext : GinContext :=
  { Request := ordersRequest, Status := 200, Errors := [] }

/-- A world in which nothing has been allocated or submitted. -/
def emptyWorld : World := { deps := [], excs := [], sent := [] }

/-- A uuid as the libraries print it. -/
def sampleUuid : String := "123e4567-e89b-12d3-a456-426614174000"

/-- A clock reading in the year 2026, in nanoseconds from the zero time. -/
def year2026 : Time := 63900000000000000000

/-- The implementation of the package on top of `recordingClient`. -/
def recording : insightsImpl := ⟨recordingClient⟩

/-- The context `StartGinTrackingRequestRequest` returns for `ordersContext`
in the year 2026. -/
def ordersTracked : IncomingRequest :=
  insightsImpl.StartGinTrackingRequestRequest sampleUuid year2026 year2026 year2026
    ordersContext "ikey"

/-- The context `GenerateGinTrackingRequestCtx` builds for `ordersContext`, after
`AddDependency("db", "sql", "orders-db")`: the context, the world and the handle. -/
def ordersGenerated : IncomingRequest × World × Nat :=
  (GenerateGinTrackingRequestCtx sampleUuid year2026 year2026 ordersContext
    "ikey").AddDependency "dep-1" year2026 year2026 "db" "sql" "orders-db" emptyWorld

/-- A world holding one dependency and one exception, both allocated in 2026. -/
def oneOfEach : World :=
  { deps := [NewRemoteDependencyTelemetry year2026 "db" "sql" "orders-db" false]
    excs := [NewExceptionTelemetry year2026 (GoError.withMessage "boom")]
    sent := [] }

/-- The context `ordersTracked` referring to the two cells of `oneOfEach`. -/
def ordersWithOneOfEach : IncomingRequest :=
  { ordersTracked with Dependencies := [0], Exceptions := [0] }

/-- A context like `ordersTracked` whose `RequestStartTime` was left at the zero
time. -/
def ordersNeverStarted : IncomingRequest :=
  { ordersTracked with RequestStartTime := 0 }

/-- A world holding one dependency whose `Timestamp` is the zero time. -/
def oneUnstamped : World :=
  { deps := [{ NewRemoteDependencyTelemetry year2026 "db" "sql" "orders-db" false with
      Timestamp := 0 }]
    excs := []
    sent := [] }

/-- The gin context of `ordersRequest` sent without a `transactionId` header. -/
def anonymousContext : GinContext :=
  { ordersContext with Request := { ordersRequest with Header := fun _ => [] } }

/-! ## Lemmas on maps and tags -/

theorem lookupEntry_filter_ne (k : String) (l : List (String × String)) :
    lookupEntry k (l.filter (fun p => decide (p.1 ≠ k))) = none := by
  induction l with
  | nil => rfl
  | cons p rest ih =>
    obtain ⟨a, b⟩ := p
    by_cases h : a = k
    · rw [List.filter_cons_of_neg (by simp [h])]
      exact ih
    · rw [List.filter_cons_of_pos (by simp [h])]
      simp only [lookupEntry, if_neg h]
      exact ih

theorem StringMap.get_delete_self (m : StringMap) (k : String) :
    (m.delete k).get k = none := by
  exact lookupEntry_filter_ne k m.entries

theorem StringMap.get_set_self (m : StringMap) (k v : String) :
    (m.set k v).get k = some v := by
  simp [StringMap.get, StringMap.set, lookupEntry]

theorem getTag_setTag (tags : StringMap) (key value : String) :
    getTag (setTag tags key value) key = value := by
  unfold getTag setTag
  by_cases h : value = ""
  · simp [h, StringMap.get_delete_self]
  · simp [h, StringMap.get_set_self]

theorem GetParentId_SetParentId (tags : StringMap) (tid : String) :
    GetParentId (SetParentId tags tid) = tid :=
  getTag_setTag tags OperationParentId tid

theorem GetId_SetId (tags : StringMap) (tid : String) :
    GetId (SetId tags tid) = tid :=
  getTag_setTag tags OperationId tid

/-! ## Lemmas on the two flushing loops -/

theorem handleRemoteDependencies_cons (i : insightsImpl) (tid : String) (dep : Nat)
    (rest : List Nat) (w : World) (d : RemoteDependencyTelemetry)
    (h : w.deps[dep]? = some d) :
    i.handleRemoteDependencies tid (dep :: rest) w =
      i.handleRemoteDependencies tid rest (stepDependency i tid dep d w) := by
  rw [insightsImpl.handleRemoteDependencies, h]
  rfl

theorem handleExceptions_cons (i : insightsImpl) (tid : String) (dep : Nat)
    (rest : List Nat) (w : World) (e : ExceptionTelemetry)
    (h : w.excs[dep]? = some e) :
    i.handleExceptions tid (dep :: rest) w =
      i.handleExceptions tid rest (stepException i tid dep e w) := by
  rw [insightsImpl.handleExceptions, h]
  rfl

theorem handleRemoteDependencies_nil_pointer (i : insightsImpl) (tid : String) (dep : Nat)
    (rest : List Nat) (w : World) (h : w.deps[dep]? = none) :
    i.handleRemoteDependencies tid (dep :: rest) w = .panicked w := by
  rw [insightsImpl.handleRemoteDependencies, h]

theorem handleExceptions_nil_pointer (i : insightsImpl) (tid : String) (dep : Nat)
    (rest : List Nat) (w : World) (h : w.excs[dep]? = none) :
    i.handleExceptions tid (dep :: rest) w = .panicked w := by
  rw [insightsImpl.handleExceptions, h]

/-- The dependency loop only adds submissions, each a child record tagged
with `tid`; this holds also when the loop stops on a nil pointer. -/
theorem handleRemoteDependencies_sent (i : insightsImpl) (tid : String) (deps : List Nat)
    (w : World) :
    ∃ added : List Telemetry,
      (i.handleRemoteDependencies tid deps w).state.sent = w.sent ++ added ∧
      ∀ t ∈ added, t.isChild = true ∧ GetParentId t.Tags = tid := by
  induction deps generalizing w with
  | nil => exact ⟨[], by simp [insightsImpl.handleRemoteDependencies, Outcome.state]⟩
  | cons dep rest ih =>
    cases hd : w.deps[dep]? with
    | none =>
      rw [handleRemoteDependencies_nil_pointer i tid dep rest w hd]
      exact ⟨[], by simp [Outcome.state]⟩
    | some d =>
      rw [handleRemoteDependencies_cons i tid dep rest w d hd]
      obtain ⟨added, hsent, hall⟩ := ih (stepDependency i tid dep d w)
      refine ⟨Telemetry.dependency { d with Tags := SetParentId d.Tags tid } :: added, ?_, ?_⟩
      · rw [hsent]; simp [stepDependency]
      · intro t ht
        rcases List.mem_cons.mp ht with rfl | ht
        · exact ⟨rfl, GetParentId_SetParentId _ _⟩
        · exact hall t ht

/-- The exception loop only adds submissions, each a child record tagged
with `tid`; this holds also when the loop stops on a nil pointer. -/
theorem handleExceptions_sent (i : insightsImpl) (tid : String) (deps : List Nat)
    (w : World) :
    ∃ added : List Telemetry,
      (i.handleExceptions tid deps w).state.sent = w.sent ++ added ∧
      ∀ t ∈ added, t.isChild = true ∧ GetParentId t.Tags = tid := by
  induction deps generalizing w with
  | nil => exact ⟨[], by simp [insightsImpl.handleExceptions, Outcome.state]⟩
  | cons dep rest ih =>
    cases hd : w.excs[dep]? with
    | none =>
      rw [handleExceptions_nil_pointer i tid dep rest w hd]
      exact ⟨[], by simp [Outcome.state]⟩
    | some e =>
      rw [handleExceptions_cons i tid dep rest w e hd]
      obtain ⟨added, hsent, hall⟩ := ih (stepException i tid dep e w)
      refine ⟨Telemetry.exception { e with Tags := SetParentId e.Tags tid } :: added, ?_, ?_⟩
      · rw [hsent]; simp [stepException]
      · intro t ht
        rcases List.mem_cons.mp ht with rfl | ht
        · exact ⟨rfl, GetParentId_SetParentId _ _⟩
        · exact hall t ht

/-- With every pointer allocated the dependency loop returns, having made
one submission for each pointer and changed no exception cell. -/
theorem handleRemoteDependencies_returns (i : insightsImpl) (tid : String) (deps : List Nat)
    (w : World) (hvalid : ∀ p ∈ deps, p < w.deps.length) :
    ∃ w2 : World, i.handleRemoteDependencies tid deps w = .returned w2 ∧
      w2.sent.length = w.sent.length + deps.length ∧ w2.excs = w.excs ∧
      w2.deps.length = w.deps.length := by
  induction deps generalizing w with
  | nil => exact ⟨w, rfl, by simp, rfl, rfl⟩
  | cons dep rest ih =>
    have hdep : dep < w.deps.length := hvalid dep (List.mem_cons_self _ _)
    rw [handleRemoteDependencies_cons i tid dep rest w w.deps[dep]
      (List.getElem?_eq_getElem hdep)]
    obtain ⟨w2, hret, hlen, hexc, hdeps⟩ := ih (stepDependency i tid dep w.deps[dep] w)
      (by
        intro p hp
        simpa [stepDependency] using hvalid p (List.mem_cons_of_mem _ hp))
    refine ⟨w2, hret, ?_, ?_, ?_⟩
    · rw [hlen]; simp [stepDependency]; omega
    · rw [hexc]; rfl
    · rw [hdeps]; simp [stepDependency]

/-- With every pointer allocated the exception loop returns, having made one
submission for each pointer. -/
theorem handleExceptions_returns (i : insightsImpl) (tid : String) (deps : List Nat)
    (w : World) (hvalid : ∀ p ∈ deps, p < w.excs.length) :
    ∃ w2 : World, i.handleExceptions tid deps w = .returned w2 ∧
      w2.sent.length = w.sent.length + deps.length := by
  induction deps generalizing w with
  | nil => exact ⟨w, rfl, by simp⟩
  | cons dep rest ih =>
    have hdep : dep < w.excs.length := hvalid dep (List.mem_cons_self _ _)
    rw [handleExceptions_cons i tid dep rest w w.excs[dep] (List.getElem?_eq_getElem hdep)]
    obtain ⟨w2, hret, hlen⟩ := ih (stepException i tid dep w.excs[dep] w)
      (by
        intro p hp
        simpa [stepException] using hvalid p (List.mem_cons_of_mem _ hp))
    refine ⟨w2, hret, ?_⟩
    rw [hlen]; simp [stepException]; omega

/-! ## Lemmas on the two completion functions -/

theorem flushAll_context (i : insightsImpl) (r : IncomingRequest) (w : World) :
    (flushAll i r w).state.1 = r := by
  unfold flushAll
  cases i.handleRemoteDependencies r.RequestTrace.Id r.Dependencies w with
  | panicked w1 => rfl
  | returned w1 =>
    simp only
    cases i.handleExceptions r.RequestTrace.Id r.Exceptions w1 with
    | panicked w2 => rfl
    | returned w2 => rfl

theorem flushAll_sent (i : insightsImpl) (r : IncomingRequest) (w : World) :
    ∃ added : List Telemetry,
      (flushAll i r w).state.2.sent = w.sent ++ added ∧
      ∀ t ∈ added, t.isChild = true ∧ GetParentId t.Tags = r.RequestTrace.Id := by
  obtain ⟨a1, h1, p1⟩ :=
    handleRemoteDependencies_sent i r.RequestTrace.Id r.Dependencies w
  unfold flushAll
  cases hd : i.handleRemoteDependencies r.RequestTrace.Id r.Dependencies w with
  | panicked w1 =>
    rw [hd] at h1
    exact ⟨a1, h1, p1⟩
  | returned w1 =>
    rw [hd] at h1
    simp only [Outcome.state] at h1
    obtain ⟨a2, h2, p2⟩ := handleExceptions_sent i r.RequestTrace.Id r.Exceptions w1
    simp only
    cases he : i.handleExceptions r.RequestTrace.Id r.Exceptions w1 with
    | panicked w2 =>
      rw [he] at h2
      refine ⟨a1 ++ a2, ?_, ?_⟩
      · simp only [Outcome.state] at h2 ⊢
        rw [h2, h1, List.append_assoc]
      · intro t ht
        rcases List.mem_append.mp ht with ht | ht
        · exact p1 t ht
        · exact p2 t ht
    | returned w2 =>
      rw [he] at h2
      refine ⟨a1 ++ a2, ?_, ?_⟩
      · simp only [Outcome.state] at h2 ⊢
        rw [h2, h1, List.append_assoc]
      · intro t ht
        rcases List.mem_append.mp ht with ht | ht
        · exact p1 t ht
        · exact p2 t ht

theorem flushAll_returns (i : insightsImpl) (r : IncomingRequest) (w : World)
    (hdeps : ∀ p ∈ r.Dependencies, p < w.deps.length)
    (hexcs : ∀ p ∈ r.Exceptions, p < w.excs.length) :
    ∃ w2 : World, flushAll i r w = .returned (r, w2) ∧
      w2.sent.length = w.sent.length + r.Dependencies.length + r.Exceptions.length := by
  obtain ⟨w1, hret1, hlen1, hexc1, _⟩ :=
    handleRemoteDependencies_returns i r.RequestTrace.Id r.Dependencies w hdeps
  obtain ⟨w2, hret2, hlen2⟩ :=
    handleExceptions_returns i r.RequestTrace.Id r.Exceptions w1 (by rw [hexc1]; exact hexcs)
  refine ⟨w2, ?_, ?_⟩
  · unfold flushAll
    rw [hret1]
    simp only
    rw [hret2]
  · rw [hlen2, hlen1]

theorem submitted_append (w w2 : World) (added : List Telemetry)
    (h : w2.sent = w.sent ++ added) : submitted w w2 = added := by
  simp [submitted, h]

theorem CompleteSuccesfulRequest_eq (i : insightsImpl) (now : Time) (r : IncomingRequest)
    (code : String) (w : World) :
    i.CompleteSuccesfulRequest now r code w =
      flushAll i
        { r with RequestTrace := afterTrack i w { r.RequestTrace with
            Duration := Since now r.RequestStartTime
            Success := true
            ResponseCode := code
            Tags := SetId r.RequestTrace.Tags r.TransactionId } }
        { w with sent := w.sent ++ [.request { r.RequestTrace with
            Duration := Since now r.RequestStartTime
            Success := true
            ResponseCode := code
            Tags := SetId r.RequestTrace.Tags r.TransactionId }] } := rfl

theorem CompleteFailedRequest_message_eq (i : insightsImpl) (now : Time)
    (r : IncomingRequest) (code msg : String) (w : World) :
    i.CompleteFailedRequest now r code (GoError.withMessage msg) w =
      flushAll i
        { r with RequestTrace := afterTrack i w { r.RequestTrace with
            Duration := Since now r.RequestStartTime
            Success := false
            ResponseCode := code
            Properties := r.RequestTrace.Properties.set "error" msg } }
        { w with sent := w.sent ++ [.request { r.RequestTrace with
            Duration := Since now r.RequestStartTime
            Success := false
            ResponseCode := code
            Properties := r.RequestTrace.Properties.set "error" msg }] } := rfl

theorem CompleteFailedRequest_panics (i : insightsImpl) (now : Time) (r : IncomingRequest)
    (code : String) (err : GoError) (w : World) (herr : err.Error = none) :
    i.CompleteFailedRequest now r code err w =
      .panicked
        ({ r with RequestTrace := { r.RequestTrace with
            Duration := Since now r.RequestStartTime
            Success := false
            ResponseCode := code } }, w) := by
  unfold insightsImpl.CompleteFailedRequest
  simp only [herr]

/-- With every pointer of the context allocated, a completion call that reaches
its `Track` statements returns after exactly one submission for the request
trace, one for each dependency and one for each exception. -/
theorem completion_submits_each_once (i : insightsImpl) (now : Time) (r : IncomingRequest)
    (code msg : String) (w : World)
    (hdeps : ∀ p ∈ r.Dependencies, p < w.deps.length)
    (hexcs : ∀ p ∈ r.Exceptions, p < w.excs.length) :
    ((i.CompleteSuccesfulRequest now r code w).isReturned = true ∧
      (submitted w (i.CompleteSuccesfulRequest now r code w).state.2).length =
        1 + r.Dependencies.length + r.Exceptions.length) ∧
    ((i.CompleteFailedRequest now r code (GoError.withMessage msg) w).isReturned = true ∧
      (submitted w
        (i.CompleteFailedRequest now r code (GoError.withMessage msg) w).state.2).length =
        1 + r.Dependencies.length + r.Exceptions.length) := by
  constructor
  · rw [CompleteSuccesfulRequest_eq]
    obtain ⟨w2, hret, hlen⟩ := flushAll_returns i
      { r with RequestTrace := afterTrack i w { r.RequestTrace with
          Duration := Since now r.RequestStartTime
          Success := true
          ResponseCode := code
          Tags := SetId r.RequestTrace.Tags r.TransactionId } }
      { w with sent := w.sent ++ [.request { r.RequestTrace with
          Duration := Since now r.RequestStartTime
          Success := true
          ResponseCode := code
          Tags := SetId r.RequestTrace.Tags r.TransactionId }] } hdeps hexcs
    rw [hret]
    refine ⟨rfl, ?_⟩
    simp only [submitted, Outcome.state, List.length_drop, hlen]
    simp
    omega
  · rw [CompleteFailedRequest_message_eq]
    obtain ⟨w2, hret, hlen⟩ := flushAll_returns i
      { r with RequestTrace := afterTrack i w { r.RequestTrace with
          Duration := Since now r.RequestStartTime
          Success := false
          ResponseCode := code
          Properties := r.RequestTrace.Properties.set "error" msg } }
      { w with sent := w.sent ++ [.request { r.RequestTrace with
          Duration := Since now r.RequestStartTime
          Success := false
          ResponseCode := code
          Properties := r.RequestTrace.Properties.set "error" msg }] } hdeps hexcs
    rw [hret]
    refine ⟨rfl, ?_⟩
    simp only [submitted, Outcome.state, List.length_drop, hlen]
    simp
    omega

theorem Since_eq_clamp (now t : Int) :
    Since now t = max minDuration (min maxDuration (now - t)) := by
  show (if now - t > (9223372036854775807 : Int) then (9223372036854775807 : Int)
      else if now - t < (-9223372036854775808 : Int) then (-9223372036854775808 : Int)
      else now - t) =
    max (-9223372036854775808 : Int) (min (9223372036854775807 : Int) (now - t))
  by_cases h1 : now - t > (9223372036854775807 : Int)
  · rw [if_pos h1, min_eq_left (by omega), max_eq_right (by omega)]
  · rw [if_neg h1, min_eq_right (by omega)]
    by_cases h2 : now - t < (-9223372036854775808 : Int)
    · rw [if_pos h2, max_eq_left (by omega)]
    · rw [if_neg h2, max_eq_right (by omega)]

theorem CompleteSuccesfulRequest_flag (i : insightsImpl) (now : Time) (r : IncomingRequest)
    (code : String) (w : World) :
    (i.CompleteSuccesfulRequest now r code w).state.1.RequestTrace.Success = true ∧
    (i.CompleteSuccesfulRequest now r code w).state.1.RequestTrace.ResponseCode = code := by
  rw [CompleteSuccesfulRequest_eq, flushAll_context]
  exact ⟨rfl, rfl⟩

theorem CompleteFailedRequest_flag (i : insightsImpl) (now : Time) (r : IncomingRequest)
    (code : String) (err : GoError) (w : World) :
    (i.CompleteFailedRequest now r code err w).state.1.RequestTrace.Success = false ∧
    (i.CompleteFailedRequest now r code err w).state.1.RequestTrace.ResponseCode = code := by
  cases err with
  | nilInterface =>
    rw [CompleteFailedRequest_panics i now r code GoError.nilInterface w rfl]
    exact ⟨rfl, rfl⟩
  | nilPointer =>
    rw [CompleteFailedRequest_panics i now r code GoError.nilPointer w rfl]
    exact ⟨rfl, rfl⟩
  | withMessage msg =>
    rw [CompleteFailedRequest_message_eq, flushAll_context]
    exact ⟨rfl, rfl⟩

/-! ## Lemmas on `strconv.Itoa` and `Errors.Last` -/

theorem Itoa_eq_toString (s : Int) : Itoa s = toString s := by
  cases s <;> rfl

theorem digitChar_spec : ∀ k : Nat, k < 10 →
    (Nat.digitChar k).toNat - 48 = k ∧ (Nat.digitChar k).isDigit = true ∧
    Nat.digitChar k ≠ '+' ∧ Nat.digitChar k ≠ '-' := by
  decide

theorem toDigitsCore_spec (fuel : Nat) : ∀ (n : Nat) (ds : List Char), n < fuel →
    ∃ c : Char, ∃ tl : List Char, Nat.toDigitsCore 10 fuel n ds = (c :: tl) ++ ds ∧
      digitsValue (c :: tl) = n ∧ (c :: tl).all Char.isDigit = true ∧ c ≠ '+' ∧ c ≠ '-' := by
  induction fuel with
  | zero => intro n ds h; omega
  | succ fuel ih =>
    intro n ds h
    have hmod : n % 10 < 10 := Nat.mod_lt _ (by decide)
    obtain ⟨hval, hdig, hplus, hminus⟩ := digitChar_spec (n % 10) hmod
    unfold Nat.toDigitsCore
    by_cases hq : n / 10 = 0
    · simp only [hq, if_true]
      refine ⟨Nat.digitChar (n % 10), [], rfl, ?_, ?_, hplus, hminus⟩
      · simp only [digitsValue, List.foldl, hval]
        omega
      · simp [hdig]
    · simp only [hq, if_false]
      obtain ⟨c, tl, heq, hv, hall, hp, hm⟩ := ih (n / 10) (Nat.digitChar (n % 10) :: ds) (by omega)
      refine ⟨c, tl ++ [Nat.digitChar (n % 10)], ?_, ?_, ?_, hp, hm⟩
      · rw [heq]; simp
      · have : digitsValue (c :: (tl ++ [Nat.digitChar (n % 10)])) =
            10 * digitsValue (c :: tl) + ((Nat.digitChar (n % 10)).toNat - 48) := by
          simp [digitsValue, List.foldl_append]
        rw [this, hv, hval]
        omega
      · simp only [List.all_cons, List.all_append, List.all_nil, Bool.and_true] at hall ⊢
        simp [hall, hdig]

theorem Nat_repr_spec (n : Nat) :
    ∃ c : Char, ∃ tl : List Char, (Nat.repr n).data = c :: tl ∧
      digitsValue (c :: tl) = n ∧ (c :: tl).all Char.isDigit = true ∧ c ≠ '+' ∧ c ≠ '-' := by
  obtain ⟨c, tl, heq, h⟩ := toDigitsCore_spec (n + 1) n [] (by omega)
  refine ⟨c, tl, ?_, h⟩
  simp [Nat.repr, Nat.toDigits, heq, List.asString]

theorem stripSign_digit (c : Char) (tl : List Char) (hp : c ≠ '+') (hm : c ≠ '-') :
    stripSign (c :: tl) = c :: tl ∧ hasMinus (c :: tl) = false := by
  constructor
  · unfold stripSign
    split
    · rename_i h; simp at h; exact absurd h.1 hp
    · rename_i h; simp at h; exact absurd h.1 hm
    · rfl
  · unfold hasMinus
    split
    · rename_i h; simp at h; exact absurd h.1 hm
    · rfl

theorem Atoi_Itoa (s : Int) (hlo : -9223372036854775808 ≤ s) (hhi : s ≤ 9223372036854775807) :
    Atoi (Itoa s) = some s := by
  cases s with
  | ofNat m =>
    obtain ⟨c, tl, heq, hv, hall, hp, hm⟩ := Nat_repr_spec m
    have hdata : (Itoa (Int.ofNat m)).data = c :: tl := heq
    obtain ⟨hstrip, hneg⟩ := stripSign_digit c tl hp hm
    have hm2 : (m : Int) ≤ 9223372036854775807 := hhi
    unfold Atoi
    simp only [hdata, hstrip, hneg, hv, hall]
    simp
    omega
  | negSucc m =>
    obtain ⟨c, tl, heq, hv, hall, hp, hm⟩ := Nat_repr_spec (m + 1)
    have hdata : (Itoa (Int.negSucc m)).data = '-' :: c :: tl := by
      show ("-" ++ Nat.repr (m + 1)).data = '-' :: c :: tl
      rw [String.data_append, heq]
      rfl
    have hstrip : stripSign ('-' :: c :: tl) = c :: tl := rfl
    have hneg : hasMinus ('-' :: c :: tl) = true := rfl
    have hm2 : (-9223372036854775808 : Int) ≤ Int.negSucc m := hlo
    have hm3 : Int.negSucc m = -((m : Int) + 1) := Int.negSucc_eq m
    unfold Atoi
    simp only [hdata, hstrip, hneg, hv, hall]
    simp
    omega

theorem Last_append_singleton (init : List GinError) (e : GinError) :
    Last (init ++ [e]) = some e := by
  induction init with
  | nil => rfl
  | cons a rest ih =>
    cases rest with
    | nil => rfl
    | cons b more =>
      have hstep : Last (a :: (b :: more ++ [e])) = Last (b :: more ++ [e]) := rfl
      exact hstep.trans ih

theorem Last_eq_getLast? (es : List GinError) : Last es = es.getLast? := by
  rcases List.eq_nil_or_concat es with rfl | ⟨init, e, rfl⟩
  · rfl
  · rw [List.concat_eq_append, Last_append_singleton, List.getLast?_append]
    rfl

/-! ## Lemmas on the middleware -/

theorem GINInsightsTracker_eq (i : Insights) (IKEY : String) (next : HandlerChain)
    (uuid : String) (libClock startNow stampNow endNow : Time) (c : GinContext) (w : World) :
    GINInsightsTracker i IKEY next uuid libClock startNow stampNow endNow c w =
      if 200 ≤ (handled i IKEY next uuid libClock startNow stampNow c w).2.1.Status ∧
          (handled i IKEY next uuid libClock startNow stampNow c w).2.1.Status ≤ 299 then
        i.CompleteSuccesfulRequest endNow
          (handled i IKEY next uuid libClock startNow stampNow c w).1
          (Itoa (handled i IKEY next uuid libClock startNow stampNow c w).2.1.Status)
          (handled i IKEY next uuid libClock startNow stampNow c w).2.2
      else
        i.CompleteFailedRequest endNow
          (handled i IKEY next uuid libClock startNow stampNow c w).1
          (Itoa (handled i IKEY next uuid libClock startNow stampNow c w).2.1.Status)
          (asError (Last (handled i IKEY next uuid libClock startNow stampNow c w).2.1.Errors))
          (handled i IKEY next uuid libClock startNow stampNow c w).2.2 := by
  unfold GINInsightsTracker handled
  simp only
  by_cases h : (next (i.StartGinTrackingRequestRequest uuid libClock startNow stampNow c IKEY w).1 c
      (i.StartGinTrackingRequestRequest uuid libClock startNow stampNow c IKEY w).2).2.1.Status ≥ 200 ∧
      (next (i.StartGinTrackingRequestRequest uuid libClock startNow stampNow c IKEY w).1 c
      (i.StartGinTrackingRequestRequest uuid libClock startNow stampNow c IKEY w).2).2.1.Status < 300
  · rw [if_pos h, if_pos (by omega)]
  · rw [if_neg h, if_neg (by omega)]

/-- The first item a completion call hands to the client is the request trace
as the call made it, and everything handed over after it is a child record. -/
theorem completion_hands_trace_first (i : insightsImpl) (now : Time) (r : IncomingRequest)
    (code msg : String) (w : World) :
    (∃ rest : List Telemetry,
      submitted w (i.CompleteSuccesfulRequest now r code w).state.2 =
        Telemetry.request
          { r.RequestTrace with
            Duration := Since now r.RequestStartTime
            Success := true
            ResponseCode := code
            Tags := SetId r.RequestTrace.Tags r.TransactionId } :: rest ∧
      ∀ t ∈ rest, t.isChild = true ∧ GetParentId t.Tags = r.RequestTrace.Id) ∧
    (∃ rest : List Telemetry,
      submitted w (i.CompleteFailedRequest now r code (GoError.withMessage msg) w).state.2 =
        Telemetry.request
          { r.RequestTrace with
            Duration := Since now r.RequestStartTime
            Success := false
            ResponseCode := code
            Properties := r.RequestTrace.Properties.set "error" msg } :: rest ∧
      ∀ t ∈ rest, t.isChild = true ∧ GetParentId t.Tags = r.RequestTrace.Id) := by
  constructor
  · rw [CompleteSuccesfulRequest_eq]
    obtain ⟨added, hsent, hall⟩ := flushAll_sent i
      { r with RequestTrace := afterTrack i w { r.RequestTrace with
          Duration := Since now r.RequestStartTime
          Success := true
          ResponseCode := code
          Tags := SetId r.RequestTrace.Tags r.TransactionId } }
      { w with sent := w.sent ++ [.request { r.RequestTrace with
          Duration := Since now r.RequestStartTime
          Success := true
          ResponseCode := code
          Tags := SetId r.RequestTrace.Tags r.TransactionId }] }
    exact ⟨added, submitted_append w _ _ (by rw [hsent]; simp), hall⟩
  · rw [CompleteFailedRequest_message_eq]
    obtain ⟨added, hsent, hall⟩ := flushAll_sent i
      { r with RequestTrace := afterTrack i w { r.RequestTrace with
          Duration := Since now r.RequestStartTime
          Success := false
          ResponseCode := code
          Properties := r.RequestTrace.Properties.set "error" msg } }
      { w with sent := w.sent ++ [.request { r.RequestTrace with
          Duration := Since now r.RequestStartTime
          Success := false
          ResponseCode := code
          Properties := r.RequestTrace.Properties.set "error" msg }] }
    exact ⟨added, submitted_append w _ _ (by rw [hsent]; simp), hall⟩

/-! ## The claims -/

/-- C1: for every final status `s` left by the downstream handlers, the handler
returned by `GINInsightsTracker` makes exactly one completion call on the state in
which `c.Next()` returned, `CompleteSuccesfulRequest` when `200 ≤ s ≤ 299` and
otherwise `CompleteFailedRequest` with the last attached error.  The code passed,
`Itoa s`, is the decimal string of `s`: it is what printing `s` gives and
`strconv.Atoi` reads it back as `s`.  The error passed is the last element of
`c.Errors`, and the nil `*gin.Error` when there is none.  With the implementation
of the package the success flag of the request trace afterwards is true exactly
when `200 ≤ s ≤ 299`, its response code is the decimal string of `s`, exactly one
request trace is handed to the client when the call reaches `Track`, and on the
failure path that trace carries the message of the last attached error. -/
theorem tracker_completes_once (i : Insights) (client : TelemetryClient) (IKEY : String)
    (next : HandlerChain) (uuid : String) (libClock startNow stampNow endNow : Time)
    (c : GinContext) (w : World) :
    (GINInsightsTracker i IKEY next uuid libClock startNow stampNow endNow c w =
      if 200 ≤ (handled i IKEY next uuid libClock startNow stampNow c w).2.1.Status ∧
          (handled i IKEY next uuid libClock startNow stampNow c w).2.1.Status ≤ 299 then
        i.CompleteSuccesfulRequest endNow
          (handled i IKEY next uuid libClock startNow stampNow c w).1
          (Itoa (handled i IKEY next uuid libClock startNow stampNow c w).2.1.Status)
          (handled i IKEY next uuid libClock startNow stampNow c w).2.2
      else
        i.CompleteFailedRequest endNow
          (handled i IKEY next uuid libClock startNow stampNow c w).1
          (Itoa (handled i IKEY next uuid libClock startNow stampNow c w).2.1.Status)
          (asError (Last (handled i IKEY next uuid libClock startNow stampNow c w).2.1.Errors))
          (handled i IKEY next uuid libClock startNow stampNow c w).2.2) ∧
    (∀ s : Int, Itoa s = toString s ∧
      (-9223372036854775808 ≤ s → s ≤ 9223372036854775807 → Atoi (Itoa s) = some s)) ∧
    (∀ es : List GinError, Last es = es.getLast? ∧
      (es = [] → asError (Last es) = GoError.nilPointer) ∧
      (∀ (init : List GinError) (e : GinError), es = init ++ [e] →
        asError (Last es) = GoError.withMessage e.Err)) ∧
    ((GINInsightsTracker (NewInsights client) IKEY next uuid libClock startNow stampNow endNow
        c w).state.1.RequestTrace.Success = true ↔
      200 ≤ (handled (NewInsights client) IKEY next uuid libClock startNow stampNow c w).2.1.Status ∧ (handled (NewInsights client) IKEY next uuid libClock startNow stampNow c w).2.1.Status ≤ 299) ∧
    (GINInsightsTracker (NewInsights client) IKEY next uuid libClock startNow stampNow endNow
        c w).state.1.RequestTrace.ResponseCode = Itoa (handled (NewInsights client) IKEY next uuid libClock startNow stampNow c w).2.1.Status ∧
    ((200 ≤ (handled (NewInsights client) IKEY next uuid libClock startNow stampNow c w).2.1.Status ∧ (handled (NewInsights client) IKEY next uuid libClock startNow stampNow c w).2.1.Status ≤ 299) →
      ∃ (trace : RequestTelemetry) (rest : List Telemetry),
        submitted (handled (NewInsights client) IKEY next uuid libClock startNow stampNow c w).2.2
          (GINInsightsTracker (NewInsights client) IKEY next uuid libClock startNow stampNow
            endNow c w).state.2 = Telemetry.request trace :: rest ∧
        trace.Success = true ∧ trace.ResponseCode = Itoa (handled (NewInsights client) IKEY next uuid libClock startNow stampNow c w).2.1.Status ∧
        ∀ t ∈ rest, t.isChild = true) ∧
    (¬ (200 ≤ (handled (NewInsights client) IKEY next uuid libClock startNow stampNow c w).2.1.Status ∧ (handled (NewInsights client) IKEY next uuid libClock startNow stampNow c w).2.1.Status ≤ 299) →
      ∀ (init : List GinError) (e : GinError), (handled (NewInsights client) IKEY next uuid libClock startNow stampNow c w).2.1.Errors = init ++ [e] →
      ∃ (trace : RequestTelemetry) (rest : List Telemetry),
        submitted (handled (NewInsights client) IKEY next uuid libClock startNow stampNow c w).2.2
          (GINInsightsTracker (NewInsights client) IKEY next uuid libClock startNow stampNow
            endNow c w).state.2 = Telemetry.request trace :: rest ∧
        trace.Success = false ∧ trace.ResponseCode = Itoa (handled (NewInsights client) IKEY next uuid libClock startNow stampNow c w).2.1.Status ∧
        trace.Properties.get "error" = some e.Err ∧
        ∀ t ∈ rest, t.isChild = true) := by
  have hsucc : (NewInsights client).CompleteSuccesfulRequest =
      insightsImpl.CompleteSuccesfulRequest ⟨client⟩ := rfl
  have hfail : (NewInsights client).CompleteFailedRequest =
      insightsImpl.CompleteFailedRequest ⟨client⟩ := rfl
  refine ⟨GINInsightsTracker_eq i IKEY next uuid libClock startNow stampNow endNow c w,
    fun s => ⟨Itoa_eq_toString s, Atoi_Itoa s⟩,
    fun es => ⟨Last_eq_getLast? es, ?_, ?_⟩, ?_, ?_, ?_, ?_⟩
  · intro hes
    rw [hes]
    rfl
  · intro init e hes
    rw [hes, Last_append_singleton]
    rfl
  · rw [GINInsightsTracker_eq]
    by_cases h : 200 ≤ (handled (NewInsights client) IKEY next uuid libClock startNow stampNow c w).2.1.Status ∧ (handled (NewInsights client) IKEY next uuid libClock startNow stampNow c w).2.1.Status ≤ 299
    · rw [if_pos h, hsucc]
      exact ⟨fun _ => h, fun _ => (CompleteSuccesfulRequest_flag _ _ _ _ _).1⟩
    · rw [if_neg h, hfail]
      constructor
      · intro hflag
        rw [(CompleteFailedRequest_flag _ _ _ _ _ _).1] at hflag
        exact absurd hflag (by decide)
      · intro hs
        exact absurd hs h
  · rw [GINInsightsTracker_eq]
    by_cases h : 200 ≤ (handled (NewInsights client) IKEY next uuid libClock startNow stampNow c w).2.1.Status ∧ (handled (NewInsights client) IKEY next uuid libClock startNow stampNow c w).2.1.Status ≤ 299
    · rw [if_pos h, hsucc]
      exact (CompleteSuccesfulRequest_flag _ _ _ _ _).2
    · rw [if_neg h, hfail]
      exact (CompleteFailedRequest_flag _ _ _ _ _ _).2
  · intro h
    rw [GINInsightsTracker_eq, if_pos h, hsucc]
    obtain ⟨rest, hsub, hall⟩ := (completion_hands_trace_first ⟨client⟩ endNow (handled (NewInsights client) IKEY next uuid libClock startNow stampNow c w).1
      (Itoa (handled (NewInsights client) IKEY next uuid libClock startNow stampNow c w).2.1.Status) "" (handled (NewInsights client) IKEY next uuid libClock startNow stampNow c w).2.2).1
    exact ⟨_, rest, hsub, rfl, rfl, fun t ht => (hall t ht).1⟩
  · intro h init e hes
    rw [GINInsightsTracker_eq, if_neg h, hfail, hes, Last_append_singleton]
    obtain ⟨rest, hsub, hall⟩ := (completion_hands_trace_first ⟨client⟩ endNow (handled (NewInsights client) IKEY next uuid libClock startNow stampNow c w).1
      (Itoa (handled (NewInsights client) IKEY next uuid libClock startNow stampNow c w).2.1.Status) e.Err (handled (NewInsights client) IKEY next uuid libClock startNow stampNow c w).2.2).2
    exact ⟨_, rest, hsub, rfl, rfl, StringMap.get_set_self _ _ _, fun t ht => (hall t ht).1⟩

/-- C1, evaluated on the request `GET /orders` with the recording client: a
chain that attaches the errors `retry` and `timeout` and answers 500 leads to the
one call `CompleteFailedRequest(req, "500", timeout)`, and a chain that leaves the
status at 200 to the one call `CompleteSuccesfulRequest(req, "200")`. -/
theorem tracker_completes_once_on_orders :
    GINInsightsTracker (NewInsights recordingClient) "ikey" timeoutHandler sampleUuid
        year2026 year2026 year2026 year2026 ordersContext emptyWorld =
      recording.CompleteFailedRequest year2026 ordersTracked "500"
        (GoError.withMessage "timeout") emptyWorld ∧
    GINInsightsTracker (NewInsights recordingClient) "ikey" plainHandler sampleUuid
        year2026 year2026 year2026 year2026 ordersContext emptyWorld =
      recording.CompleteSuccesfulRequest year2026 ordersTracked "200" emptyWorld ∧
    (GINInsightsTracker (NewInsights recordingClient) "ikey" timeoutHandler sampleUuid
        year2026 year2026 year2026 year2026 ordersContext emptyWorld).state.2.sent.map
      (fun t => match t with
        | .request trace => (trace.ResponseCode, trace.Success, trace.Properties.get "error")
        | _ => ("", false, none)) = [("500", false, some "timeout")] ∧
    (GINInsightsTracker (NewInsights recordingClient) "ikey" plainHandler sampleUuid
        year2026 year2026 year2026 year2026 ordersContext emptyWorld).state.2.sent.map
      (fun t => match t with
        | .request trace => (trace.ResponseCode, trace.Success, trace.Properties.get "error")
        | _ => ("", false, none)) = [("200", true, none)] ∧
    Itoa 200 = "200" ∧ Itoa 299 = "299" ∧ Itoa 404 = "404" ∧ Itoa 500 = "500" ∧
    Itoa 0 = "0" ∧ Itoa (-7) = "-7" ∧
    Last [GinError.mk "retry", GinError.mk "timeout"] = some (GinError.mk "timeout") :=
  ⟨(tracker_completes_once (NewInsights recordingClient) recordingClient "ikey" timeoutHandler
      sampleUuid year2026 year2026 year2026 year2026 ordersContext emptyWorld).1.trans
      (by decide),
   (tracker_completes_once (NewInsights recordingClient) recordingClient "ikey" plainHandler
      sampleUuid year2026 year2026 year2026 year2026 ordersContext emptyWorld).1.trans
      (by decide),
   by decide, by decide, by decide, by decide, by decide, by decide, by decide, by decide,
   by decide⟩

/-- C2, counterexample: a context built with `GenerateGinTrackingRequestCtx` from
the request with header `transactionId: abc123`, one dependency added, completed
with `CompleteSuccesfulRequest`: the dependency is submitted with the uuid of the
request trace as parent id, not with `abc123`, the transaction id of the context. -/
theorem generated_context_parent_is_not_transaction_id :
    ¬ (∀ t ∈ submitted ordersGenerated.2.1
          (recording.CompleteSuccesfulRequest year2026 ordersGenerated.1 "200"
            ordersGenerated.2.1).state.2,
        t.isChild = true → GetParentId t.Tags = ordersGenerated.1.TransactionId) ∧
    ordersGenerated.1.TransactionId = "abc123" ∧
    (submitted ordersGenerated.2.1
        (recording.CompleteSuccesfulRequest year2026 ordersGenerated.1 "200"
          ordersGenerated.2.1).state.2).map (fun t => (t.isChild, GetParentId t.Tags)) =
      [(false, ""), (true, sampleUuid)] := by
  decide

/-- C2, amended: every dependency and every exception record that
`CompleteSuccesfulRequest` or `CompleteFailedRequest` submits carries a parent id
equal to `r.RequestTrace.Id`; for a context returned by
`StartGinTrackingRequestRequest` that id is the transaction id of the context,
while a context built by `GenerateGinTrackingRequestCtx` has the uuid that the
telemetry library drew for its request trace. -/
theorem children_carry_request_trace_id (i : insightsImpl) (now : Time) (r : IncomingRequest)
    (code : String) (err : GoError) (w : World) :
    (∀ t ∈ submitted w (i.CompleteSuccesfulRequest now r code w).state.2,
        t.isChild = true → GetParentId t.Tags = r.RequestTrace.Id) ∧
    (∀ t ∈ submitted w (i.CompleteFailedRequest now r code err w).state.2,
        t.isChild = true → GetParentId t.Tags = r.RequestTrace.Id) ∧
    (∀ (uuid : String) (libClock startNow stampNow : Time) (ctx : GinContext) (IKEY : String),
        (insightsImpl.StartGinTrackingRequestRequest uuid libClock startNow stampNow ctx
          IKEY).RequestTrace.Id =
        (insightsImpl.StartGinTrackingRequestRequest uuid libClock startNow stampNow ctx
          IKEY).TransactionId ∧
        (GenerateGinTrackingRequestCtx uuid libClock startNow ctx IKEY).RequestTrace.Id =
          uuid) := by
  refine ⟨?_, ?_, fun _ _ _ _ _ _ => ⟨rfl, rfl⟩⟩
  · intro t ht hchild
    obtain ⟨rest, hsub, hall⟩ := (completion_hands_trace_first i now r code "" w).1
    rw [hsub] at ht
    rcases List.mem_cons.mp ht with rfl | ht
    · exact absurd hchild (by simp [Telemetry.isChild])
    · exact (hall t ht).2
  · intro t ht hchild
    cases err with
    | nilInterface =>
      rw [CompleteFailedRequest_panics i now r code GoError.nilInterface w rfl] at ht
      simp [submitted, Outcome.state] at ht
    | nilPointer =>
      rw [CompleteFailedRequest_panics i now r code GoError.nilPointer w rfl] at ht
      simp [submitted, Outcome.state] at ht
    | withMessage msg =>
      obtain ⟨rest, hsub, hall⟩ := (completion_hands_trace_first i now r code msg w).2
      rw [hsub] at ht
      rcases List.mem_cons.mp ht with rfl | ht
      · exact absurd hchild (by simp [Telemetry.isChild])
      · exact (hall t ht).2

/-- C3, the failing call: `CompleteFailedRequest` given the error value that the
middleware passes when no error was attached panics before its first `Track`, so
for every client and context the call makes no submission at all; on a context
with one dependency and one exception that is 0 submissions where 1 + 1 + 1 are
due. -/
theorem failed_request_without_error_submits_nothing :
    (∀ (i : insightsImpl) (now : Time) (r : IncomingRequest) (code : String) (w : World),
      (i.CompleteFailedRequest now r code (asError (Last [])) w).isReturned = false ∧
      submitted w (i.CompleteFailedRequest now r code (asError (Last [])) w).state.2 = []) ∧
    (submitted oneOfEach
        (recording.CompleteFailedRequest year2026 ordersWithOneOfEach "404"
          (asError (Last [])) oneOfEach).state.2).length = 0 ∧
    1 + ordersWithOneOfEach.Dependencies.length + ordersWithOneOfEach.Exceptions.length = 3 := by
  refine ⟨fun i now r code w => ?_, by decide, by decide⟩
  have hnil : asError (Last []) = GoError.nilPointer := rfl
  rw [hnil, CompleteFailedRequest_panics i now r code GoError.nilPointer w rfl]
  exact ⟨rfl, by simp [submitted, Outcome.state]⟩

/-- C4, counterexample: a context whose `RequestStartTime` is the zero time,
failed in the year 2026 with status 500 and error `timeout`: the trace is submitted
with the largest `Duration`, which is not `now - r.RequestStartTime`. -/
theorem failed_trace_duration_saturates :
    (submitted emptyWorld
        (recording.CompleteFailedRequest year2026 ordersNeverStarted "500"
          (GoError.withMessage "timeout") emptyWorld).state.2).map
      (fun t => match t with
        | .request trace => (trace.Success, trace.ResponseCode, trace.Duration)
        | _ => (true, "", 0)) = [(false, "500", 9223372036854775807)] ∧
    (9223372036854775807 : Int) ≠ year2026 - ordersNeverStarted.RequestStartTime := by
  decide

/-- C4, amended: for every context `r`, code `c` and error with message `msg`, the
first item `CompleteFailedRequest` submits is the request trace with
`Success = false`, `ResponseCode = c`, `Properties["error"] = msg` and
`Duration = now - r.RequestStartTime` brought into the range of a `Duration`
(between `-2^63` and `2^63 - 1` nanoseconds), every other field as it was; nothing
but dependency and exception records is submitted after it; and the context holds
that same trace afterwards, its two maps being as the client left them. -/
theorem failed_trace_fields (i : insightsImpl) (now : Int) (r : IncomingRequest)
    (code msg : String) (w : World) :
    ∃ rest : List Telemetry,
      submitted w (i.CompleteFailedRequest now r code (GoError.withMessage msg) w).state.2 =
        Telemetry.request
          { r.RequestTrace with
            Duration := max minDuration (min maxDuration (now - r.RequestStartTime))
            Success := false
            ResponseCode := code
            Properties := r.RequestTrace.Properties.set "error" msg } :: rest ∧
      (∀ t ∈ rest, t.isChild = true) ∧
      (i.CompleteFailedRequest now r code (GoError.withMessage msg) w).state.1.RequestTrace =
        afterTrack i w
          { r.RequestTrace with
            Duration := max minDuration (min maxDuration (now - r.RequestStartTime))
            Success := false
            ResponseCode := code
            Properties := r.RequestTrace.Properties.set "error" msg } ∧
      (r.RequestTrace.Properties.set "error" msg).get "error" = some msg := by
  obtain ⟨rest, hsub, hall⟩ := (completion_hands_trace_first i now r code msg w).2
  rw [← Since_eq_clamp]
  refine ⟨rest, hsub, fun t ht => (hall t ht).1, ?_, StringMap.get_set_self _ _ _⟩
  rw [CompleteFailedRequest_message_eq, flushAll_context]

/-- C5, the failing call: on the context of the request with header
`transactionId: abc123`, `CompleteSuccesfulRequest` submits a request trace whose
operation id is `abc123`, while `CompleteFailedRequest` submits one that has no
operation id tag; for every client and context the trace `CompleteFailedRequest`
hands over has the tags the context had before the call, while the one
`CompleteSuccesfulRequest` hands over has the transaction id as operation id. -/
theorem failed_trace_has_no_operation_id :
    ordersTracked.TransactionId = "abc123" ∧
    (submitted emptyWorld
        (recording.CompleteSuccesfulRequest year2026 ordersTracked "200"
          emptyWorld).state.2).map (fun t => t.Tags.get OperationId) = [some "abc123"] ∧
    (submitted emptyWorld
        (recording.CompleteFailedRequest year2026 ordersTracked "500"
          (GoError.withMessage "timeout") emptyWorld).state.2).map
        (fun t => t.Tags.get OperationId) = [none] ∧
    (∀ (i : insightsImpl) (now : Time) (r : IncomingRequest) (code msg : String) (w : World),
      (∃ (trace : RequestTelemetry) (rest : List Telemetry),
        submitted w (i.CompleteFailedRequest now r code (GoError.withMessage msg) w).state.2 =
          Telemetry.request trace :: rest ∧
        trace.Tags = r.RequestTrace.Tags) ∧
      (∃ (trace : RequestTelemetry) (rest : List Telemetry),
        submitted w (i.CompleteSuccesfulRequest now r code w).state.2 =
          Telemetry.request trace :: rest ∧
        GetId trace.Tags = r.TransactionId)) := by
  refine ⟨by decide, by decide, by decide, fun i now r code msg w => ⟨?_, ?_⟩⟩
  · obtain ⟨rest, hsub, _⟩ := (completion_hands_trace_first i now r code msg w).2
    exact ⟨_, rest, hsub, rfl⟩
  · obtain ⟨rest, hsub, _⟩ := (completion_hands_trace_first i now r code msg w).1
    exact ⟨_, rest, hsub, GetId_SetId _ _⟩

/-- C6, the failing request: when the downstream handlers leave a status outside
200..299 and no attached error, the handler of `GINInsightsTracker` does not
return: `CompleteFailedRequest` panics on the nil error, after clearing the success
flag and before any submission. -/
theorem tracker_panics_without_attached_error (client : TelemetryClient) (IKEY : String)
    (next : HandlerChain) (uuid : String) (libClock startNow stampNow endNow : Time)
    (c : GinContext) (w : World)
    (hstatus : ¬ (200 ≤ (handled (NewInsights client) IKEY next uuid libClock startNow stampNow c w).2.1.Status ∧ (handled (NewInsights client) IKEY next uuid libClock startNow stampNow c w).2.1.Status ≤ 299))
    (herrors : (handled (NewInsights client) IKEY next uuid libClock startNow stampNow c w).2.1.Errors = []) :
    (GINInsightsTracker (NewInsights client) IKEY next uuid libClock startNow stampNow endNow
        c w).isReturned = false ∧
    submitted (handled (NewInsights client) IKEY next uuid libClock startNow stampNow c w).2.2
      (GINInsightsTracker (NewInsights client) IKEY next uuid libClock startNow stampNow endNow
        c w).state.2 = [] ∧
    (GINInsightsTracker (NewInsights client) IKEY next uuid libClock startNow stampNow endNow
        c w).state.1.RequestTrace.Success = false := by
  rw [GINInsightsTracker_eq, if_neg hstatus, herrors]
  have hsame : (NewInsights client).CompleteFailedRequest =
      insightsImpl.CompleteFailedRequest ⟨client⟩ := rfl
  have hnil : asError (Last []) = GoError.nilPointer := rfl
  rw [hsame, hnil, CompleteFailedRequest_panics _ _ _ _ GoError.nilPointer _ rfl]
  exact ⟨rfl, by simp [submitted, Outcome.state], rfl⟩

/-- C6, evaluated: the request `GET /orders` answered 404 by a handler that
attaches no error. -/
theorem tracker_panics_on_plain_not_found :
    (GINInsightsTracker (NewInsights recordingClient) "ikey" notFoundHandler sampleUuid
        year2026 year2026 year2026 year2026 ordersContext emptyWorld).isReturned = false ∧
    submitted (handled (NewInsights recordingClient) "ikey" notFoundHandler sampleUuid
        year2026 year2026 year2026 ordersContext emptyWorld).2.2
      (GINInsightsTracker (NewInsights recordingClient) "ikey" notFoundHandler sampleUuid
        year2026 year2026 year2026 year2026 ordersContext emptyWorld).state.2 = [] ∧
    (GINInsightsTracker (NewInsights recordingClient) "ikey" notFoundHandler sampleUuid
        year2026 year2026 year2026 year2026 ordersContext
        emptyWorld).state.1.RequestTrace.Success = false :=
  tracker_panics_without_attached_error recordingClient "ikey" notFoundHandler sampleUuid
    year2026 year2026 year2026 year2026 ordersContext emptyWorld (by decide) (by decide)

/-- C7: the context returned by `StartGinTrackingRequestRequest` has
`TransactionId` and `RequestTrace.Id` equal to the value `t` of the
`transactionId` header, both empty when the header is absent; `Path` and `Method`
are copied from the request, `Properties["Query"]` is the raw query string, and
the dependency and exception lists are empty. -/
theorem start_request_context (uuid : String) (libClock startNow now : Time)
    (ctx : GinContext) (IKEY : String) :
    (∀ (t : String) (more : List String), ctx.Request.Header "transactionId" = t :: more →
      (insightsImpl.StartGinTrackingRequestRequest uuid libClock startNow now ctx
        IKEY).TransactionId = t ∧
      (insightsImpl.StartGinTrackingRequestRequest uuid libClock startNow now ctx
        IKEY).RequestTrace.Id = t) ∧
    (ctx.Request.Header "transactionId" = [] →
      (insightsImpl.StartGinTrackingRequestRequest uuid libClock startNow now ctx
        IKEY).TransactionId = "" ∧
      (insightsImpl.StartGinTrackingRequestRequest uuid libClock startNow now ctx
        IKEY).RequestTrace.Id = "") ∧
    (insightsImpl.StartGinTrackingRequestRequest uuid libClock startNow now ctx IKEY).Path =
      ctx.Request.URL.Path ∧
    (insightsImpl.StartGinTrackingRequestRequest uuid libClock startNow now ctx IKEY).Method =
      ctx.Request.Method ∧
    (insightsImpl.StartGinTrackingRequestRequest uuid libClock startNow now ctx
      IKEY).RequestTrace.Properties.get "Query" = some ctx.Request.URL.RawQuery ∧
    (insightsImpl.StartGinTrackingRequestRequest uuid libClock startNow now ctx
      IKEY).Dependencies = [] ∧
    (insightsImpl.StartGinTrackingRequestRequest uuid libClock startNow now ctx
      IKEY).Exceptions = [] := by
  refine ⟨?_, ?_, rfl, rfl, StringMap.get_set_self _ _ _, rfl, rfl⟩
  · intro t more ht
    have hget : ctx.Request.HeaderGet "transactionId" = t := by
      simp [Request.HeaderGet, ht]
    exact ⟨hget, hget⟩
  · intro ht
    have hget : ctx.Request.HeaderGet "transactionId" = "" := by
      simp [Request.HeaderGet, ht]
    exact ⟨hget, hget⟩

/-- C7, evaluated on the request with header `transactionId: abc123` and on the
same request without the header. -/
theorem start_request_context_on_orders :
    (ordersContext.Request.Header "transactionId" = ["abc123"] ∧
      (insightsImpl.StartGinTrackingRequestRequest sampleUuid year2026 year2026 year2026
        ordersContext "ikey").TransactionId = "abc123" ∧
      (insightsImpl.StartGinTrackingRequestRequest sampleUuid year2026 year2026 year2026
        ordersContext "ikey").RequestTrace.Id = "abc123") ∧
    (anonymousContext.Request.Header "transactionId" = [] ∧
      (insightsImpl.StartGinTrackingRequestRequest sampleUuid year2026 year2026 year2026
        anonymousContext "ikey").TransactionId = "" ∧
      (insightsImpl.StartGinTrackingRequestRequest sampleUuid year2026 year2026 year2026
        anonymousContext "ikey").RequestTrace.Id = "") :=
  ⟨⟨by decide,
    (start_request_context sampleUuid year2026 year2026 year2026 ordersContext "ikey").1
      "abc123" [] (by decide)⟩,
   ⟨rfl,
    (start_request_context sampleUuid year2026 year2026 year2026 anonymousContext
      "ikey").2.1 rfl⟩⟩

/-- C8, counterexample: a dependency whose `Timestamp` is the zero time, which is
not later than a clock reading of the year 2026, completed at that reading: its
`Duration` becomes the largest `Duration`, not `now - d.Timestamp`. -/
theorem complete_dependency_saturates :
    oneUnstamped.deps.map (fun d => d.Timestamp) = [0] ∧ (0 : Int) ≤ year2026 ∧
    (ordersTracked.CompleteDependency year2026 0 true oneUnstamped).isReturned = true ∧
    (ordersTracked.CompleteDependency year2026 0 true oneUnstamped).state.deps.map
        (fun d => (d.Success, d.Duration)) = [(true, 9223372036854775807)] ∧
    (9223372036854775807 : Int) ≠ year2026 - 0 := by
  decide

/-- C8, amended: for every dependency handle `d` whose `Timestamp` is not later than
the clock reading, `CompleteDependency(d, true)` returns and leaves `d` with
`Success = true` and `Duration` equal to `now - d.Timestamp`, or to the largest
`Duration` (`2^63 - 1` nanoseconds) when the difference exceeds it, in both cases
not negative; no other field of `d`, no other dependency, no exception and no
submission changes; a second call overwrites `Duration` with the time elapsed at
its own clock reading. -/
theorem complete_dependency_effect (now later : Int) (i : IncomingRequest) (dep : Nat)
    (d : RemoteDependencyTelemetry) (w : World)
    (hcell : w.deps[dep]? = some d) (hpast : d.Timestamp ≤ now) :
    ∃ w1 : World,
      i.CompleteDependency now dep true w = .returned w1 ∧
      w1.deps[dep]? =
        some { d with Duration := min (now - d.Timestamp) maxDuration, Success := true } ∧
      0 ≤ min (now - d.Timestamp) maxDuration ∧
      (∀ a : Nat, a ≠ dep → w1.deps[a]? = w.deps[a]?) ∧
      w1.deps.length = w.deps.length ∧ w1.excs = w.excs ∧ w1.sent = w.sent ∧
      ∃ w2 : World,
        i.CompleteDependency later dep true w1 = .returned w2 ∧
        w2.deps[dep]? = some { d with Duration := Since later d.Timestamp, Success := true } := by
  have hlt : dep < w.deps.length := by
    by_contra hge
    rw [List.getElem?_eq_none (Nat.le_of_not_lt hge)] at hcell
    exact absurd hcell (by simp)
  have hpast2 : (0 : Int) ≤ now - d.Timestamp := Int.sub_nonneg_of_le hpast
  have hsince : Since now d.Timestamp = min (now - d.Timestamp) maxDuration := by
    rw [Since_eq_clamp]
    have hmin : minDuration ≤ min maxDuration (now - d.Timestamp) := by
      apply le_min
      · decide
      · exact le_trans (by decide) hpast2
    rw [max_eq_right hmin, min_comm]
  obtain ⟨d1, hd1⟩ : ∃ d1 : RemoteDependencyTelemetry,
      d1 = { d with Duration := min (now - d.Timestamp) maxDuration, Success := true } :=
    ⟨_, rfl⟩
  obtain ⟨d2, hd2⟩ : ∃ d2 : RemoteDependencyTelemetry,
      d2 = { d with Duration := Since later d.Timestamp, Success := true } := ⟨_, rfl⟩
  have hrun : i.CompleteDependency now dep true w =
      .returned { w with deps := w.deps.set dep d1 } := by
    unfold IncomingRequest.CompleteDependency
    rw [hcell, hd1]
    simp only [hsince]
  have hcell1 : (w.deps.set dep d1)[dep]? = some d1 := List.getElem?_set_self hlt
  have hrun2 : i.CompleteDependency later dep true { w with deps := w.deps.set dep d1 } =
      .returned { w with deps := (w.deps.set dep d1).set dep d2 } := by
    unfold IncomingRequest.CompleteDependency
    simp only [hcell1]
    rw [hd1, hd2]
  rw [← hd1, ← hd2]
  refine ⟨_, hrun, hcell1, le_min hpast2 (by decide), ?_, ?_, rfl, rfl, _, hrun2, ?_⟩
  · intro a ha
    exact List.getElem?_set_ne (Ne.symm ha)
  · simp
  · exact List.getElem?_set_self (by simpa using hlt)

/-- C8, evaluated: a dependency stamped at 5, completed at 12 and again at 20. -/
theorem complete_dependency_effect_on_sample :
    ∃ w1 : World,
      (insightsImpl.StartGinTrackingRequestRequest sampleUuid 1 2 3 ordersContext
          "ikey").CompleteDependency 12 0 true
        (World.mk [NewRemoteDependencyTelemetry 5 "db" "sql" "orders-db" false] [] []) =
        .returned w1 ∧
      w1.deps[0]? =
        some { NewRemoteDependencyTelemetry 5 "db" "sql" "orders-db" false with
          Duration := min (12 - 5) maxDuration, Success := true } ∧
      0 ≤ min ((12 : Int) - 5) maxDuration ∧
      (∀ a : Nat, a ≠ 0 → w1.deps[a]? =
        (World.mk [NewRemoteDependencyTelemetry 5 "db" "sql" "orders-db" false] [] []).deps[a]?) ∧
      w1.deps.length = 1 ∧ w1.excs = [] ∧ w1.sent = [] ∧
      ∃ w2 : World,
        (insightsImpl.StartGinTrackingRequestRequest sampleUuid 1 2 3 ordersContext
          "ikey").CompleteDependency 20 0 true w1 = .returned w2 ∧
        w2.deps[0]? =
          some { NewRemoteDependencyTelemetry 5 "db" "sql" "orders-db" false with
            Duration := Since 20 5, Success := true } :=
  complete_dependency_effect 12 20
    (insightsImpl.StartGinTrackingRequestRequest sampleUuid 1 2 3 ordersContext "ikey") 0
    (NewRemoteDependencyTelemetry 5 "db" "sql" "orders-db" false)
    (World.mk [NewRemoteDependencyTelemetry 5 "db" "sql" "orders-db" false] [] [])
    rfl (by decide)

/-- C9, counterexample: `LogFaliure` and `LogWarning` given a nil error, be it the
nil interface or the nil `*gin.Error` that `c.Errors.Last()` returns when nothing
was attached, panic at `err.Error()` and append no exception record. -/
theorem log_of_nil_error_appends_nothing :
    (ordersTracked.LogFaliure year2026 year2026 GoError.nilInterface emptyWorld).isReturned
      = false ∧
    (ordersTracked.LogFaliure year2026 year2026 GoError.nilInterface
      emptyWorld).state.1.Exceptions = ordersTracked.Exceptions ∧
    (ordersTracked.LogFaliure year2026 year2026 GoError.nilInterface emptyWorld).state.2.excs
      = [] ∧
    (ordersTracked.LogWarning year2026 year2026 (asError (Last []))
      emptyWorld).isReturned = false ∧
    (ordersTracked.LogWarning year2026 year2026 (asError (Last []))
      emptyWorld).state.1.Exceptions = ordersTracked.Exceptions ∧
    (ordersTracked.LogWarning year2026 year2026 (asError (Last [])) emptyWorld).state.2.excs
      = [] ∧
    ordersTracked.Exceptions = [] := by
  decide

/-- C9, amended: for every context and every error that is not nil, so that it
has a message, `LogFaliure` appends exactly one exception record at the end of
`Exceptions`, of severity `Critical`,
and `LogWarning` exactly one of severity `Warning`; the record holds the error, its
message under `Properties["errorMessage"]` and the current timestamp; the records
already there keep their order and content, and the dependencies, the request
trace and the submissions are unchanged. -/
theorem log_appends_one_exception (libClock now : Time) (i : IncomingRequest) (msg : String)
    (w : World) :
    (i.LogFaliure libClock now (GoError.withMessage msg) w =
      .returned
        ({ i with Exceptions := i.Exceptions ++ [w.excs.length] },
         { w with excs := w.excs ++
            [ExceptionTelemetry.mk (GoError.withMessage msg) SeverityLevel.Critical now
              StringMap.empty (StringMap.empty.set "errorMessage" msg)] })) ∧
    (i.LogWarning libClock now (GoError.withMessage msg) w =
      .returned
        ({ i with Exceptions := i.Exceptions ++ [w.excs.length] },
         { w with excs := w.excs ++
            [ExceptionTelemetry.mk (GoError.withMessage msg) SeverityLevel.Warning now
              StringMap.empty (StringMap.empty.set "errorMessage" msg)] })) ∧
    (StringMap.empty.set "errorMessage" msg).get "errorMessage" = some msg ∧
    (∀ e : ExceptionTelemetry,
      (w.excs ++ [e])[w.excs.length]? = some e ∧
      ∀ a : Nat, a < w.excs.length → (w.excs ++ [e])[a]? = w.excs[a]?) ∧
    ((i.LogFaliure libClock now (GoError.withMessage msg) w).state.1.Dependencies =
        i.Dependencies ∧
      (i.LogFaliure libClock now (GoError.withMessage msg) w).state.1.RequestTrace =
        i.RequestTrace ∧
      (i.LogFaliure libClock now (GoError.withMessage msg) w).state.2.deps = w.deps ∧
      (i.LogFaliure libClock now (GoError.withMessage msg) w).state.2.sent = w.sent) ∧
    ((i.LogWarning libClock now (GoError.withMessage msg) w).state.1.Dependencies =
        i.Dependencies ∧
      (i.LogWarning libClock now (GoError.withMessage msg) w).state.1.RequestTrace =
        i.RequestTrace ∧
      (i.LogWarning libClock now (GoError.withMessage msg) w).state.2.deps = w.deps ∧
      (i.LogWarning libClock now (GoError.withMessage msg) w).state.2.sent = w.sent) := by
  refine ⟨rfl, rfl, StringMap.get_set_self _ _ _, fun e => ⟨?_, fun a ha => ?_⟩,
    ⟨rfl, rfl, rfl, rfl⟩, ⟨rfl, rfl, rfl, rfl⟩⟩
  · simp
  · exact List.getElem?_append_left ha

/-- C10: for every context and strings `name`, `type`, `target`, `AddDependency`
makes `Dependencies` the previous list followed by exactly one new dependency,
which is the returned handle and has the given name, type and target, the current
timestamp and `Success = false`; the dependencies already there keep their order
and content, and the exceptions, the request trace and the submissions are
unchanged. -/
theorem add_dependency_appends_one (uuid : String) (libClock now : Time) (i : IncomingRequest)
    (name type target : String) (w : World) :
    (i.AddDependency uuid libClock now name type target w =
      ({ i with Dependencies := i.Dependencies ++ [w.deps.length] },
       { w with deps := w.deps ++
          [RemoteDependencyTelemetry.mk name uuid "" 0 false "" type target now
            StringMap.empty StringMap.empty] },
       w.deps.length)) ∧
    (i.AddDependency uuid libClock now name type target w).1.Dependencies =
      i.Dependencies ++ [(i.AddDependency uuid libClock now name type target w).2.2] ∧
    (∃ k : RemoteDependencyTelemetry,
      (i.AddDependency uuid libClock now name type target w).2.1.deps[
        (i.AddDependency uuid libClock now name type target w).2.2]? = some k ∧
      (i.AddDependency uuid libClock now name type target w).2.1.deps = w.deps ++ [k] ∧
      k.Name = name ∧ k.Type_ = type ∧ k.Target = target ∧ k.Timestamp = now ∧
      k.Success = false) ∧
    (∀ a : Nat, a < w.deps.length →
      (i.AddDependency uuid libClock now name type target w).2.1.deps[a]? = w.deps[a]?) ∧
    (i.AddDependency uuid libClock now name type target w).1.Exceptions = i.Exceptions ∧
    (i.AddDependency uuid libClock now name type target w).1.RequestTrace = i.RequestTrace ∧
    (i.AddDependency uuid libClock now name type target w).2.1.excs = w.excs ∧
    (i.AddDependency uuid libClock now name type target w).2.1.sent = w.sent := by
  refine ⟨rfl, rfl, ⟨_, ?_, rfl, rfl, rfl, rfl, rfl, rfl⟩, fun a ha => ?_, rfl, rfl, rfl, rfl⟩
  · simp [IncomingRequest.AddDependency]
  · exact List.getElem?_append_left ha

end Cronus
